import Mathlib

/-!
Shallow embedding of the antibiotics-calculator front-end
(`script.js`, `data.js` and the API client), restricted to the pure
computational core: the coverage filter, the dosage resolver, the
Cockcroft-Gault clearance estimator, the coverage-accounting panel, the
display sort and the legacy-catalog normalization.

JavaScript objects whose values are level strings (sometimes booleans)
are modelled as association lists over a small `JVal` type; JS
truthiness of such values is `JVal.truthy`.  Numbers entering the
clearance formula are modelled as rationals, with `parseFloat` failure
(`NaN`) modelled as `Option.none`.
-/

namespace AntiCalc

/-- A value stored in a legacy `coverage`/`resistance` map: either a level
string (`""`, `"v"`, `"+"`, `"++"`) or, in a few records, a boolean. -/
inductive JVal where
  | str (s : String)
  | boolean (b : Bool)
deriving DecidableEq, Repr

/-- JS truthiness of a `JVal` (the empty string and `false` are falsy). -/
def JVal.truthy : JVal → Bool
  | .str s => s ≠ ""
  | .boolean b => b

/-- One entry of a legacy `dosages` array. -/
structure LegacyDose where
  indication : String
  dose : String
  preferred : Bool
deriving DecidableEq, Repr

/-- A legacy (`data.js`-shaped) antibiotic record. -/
structure LegacyAb where
  name : String
  coverage : List (String × JVal)
  resistance : List (String × JVal)
  penetration : List (String × Bool)
  dosages : List LegacyDose
  dialysisDosages : List (String × String)
  comments : String
deriving DecidableEq, Repr

/-- Truthy lookup in a legacy coverage/resistance map: `m[k]` is truthy. -/
def lookupTruthy (m : List (String × JVal)) (k : String) : Bool :=
  match m.lookup k with
  | some v => v.truthy
  | none => false

/-- Truthy lookup in a legacy penetration map: `m[k]` is truthy. -/
def lookupPen (m : List (String × Bool)) (k : String) : Bool :=
  (m.lookup k).getD false

/-- Substring test on character lists, mirroring JS `String.includes`. -/
def charsContains (hay needle : List Char) : Bool :=
  if needle.isPrefixOf hay then true
  else
    match hay with
    | [] => false
    | _ :: t => charsContains t needle

/-- JS `s.includes(sub)`. -/
def jsIncludes (s sub : String) : Bool :=
  charsContains s.toList sub.toList

/-- `_detectCategory` of the API client: substring heuristics on the
lower-cased name. -/
def detectCategory (name : String) : String :=
  let n := name.toLower
  if jsIncludes n "cillin" || jsIncludes n "amox" || jsIncludes n "unasyn" || jsIncludes n "tazocin" then "penicillin"
  else if jsIncludes n "cef" || jsIncludes n "flomoxef" || jsIncludes n "brosym" || jsIncludes n "zavicefta" then "cephalosporin"
  else if jsIncludes n "penem" || jsIncludes n "culin" || jsIncludes n "doripenem" then "carbapenem"
  else if jsIncludes n "floxacin" || jsIncludes n "nemonoxacin" then "fluoroquinolone"
  else if jsIncludes n "vancomycin" || jsIncludes n "teicoplanin" then "glycopeptide"
  else if jsIncludes n "linezolid" then "oxazolidinone"
  else if jsIncludes n "minocycline" || jsIncludes n "tigecycline" then "tetracycline"
  else if jsIncludes n "erythromycin" || jsIncludes n "azithromycin" then "macrolide"
  else if jsIncludes n "clindamycin" then "lincosamide"
  else if jsIncludes n "colistin" || jsIncludes n "polymyxin" || jsIncludes n "bobimixyn" then "polymyxin"
  else if jsIncludes n "amikacin" then "aminoglycoside"
  else if jsIncludes n "daptomycin" then "glycopeptide"
  else "other"

/-- `_detectAgentType` of the API client. -/
def detectAgentType (name : String) : String :=
  let n := name.toLower
  if ["fluconazole", "voriconazole", "flucytosine", "anidulafungin", "eraxis", "isavuconazole", "amphotericin"].any (fun k => jsIncludes n k) then "antifungal"
  else if ["acyclovir", "ganciclovir", "peramivir", "rapiacta"].any (fun k => jsIncludes n k) then "antiviral"
  else "antibacterial"

/-- Scanner behind `_detectGeneration`: first occurrence of the pattern
`( <digit> ° )` in the character stream (the regex `\((\d)°\)`). -/
def genScan : List Char → Option Char
  | '(' :: d :: '°' :: ')' :: rest =>
      if d.isDigit then some d else genScan (d :: '°' :: ')' :: rest)
  | _ :: rest => genScan rest
  | [] => none

/-- `_detectGeneration` of the API client. -/
def detectGeneration (name : String) : Option String :=
  match genScan name.toList with
  | some d => some (String.mk [d, '°'])
  | none => none

/-- An antibiotic in the unified API summary format. -/
structure ApiAb where
  id : Nat
  name : String
  generic_name : Option String
  category : String
  agent_type : String
  generation : Option String
  covered_pathogens : List String
  penetration_sites : List String
  legacy : Option LegacyAb
deriving DecidableEq, Repr

/-- `_transformLegacy`: normalize a `data.js` record (at position `index`)
to the API summary format. -/
def transformLegacy (index : Nat) (ab : LegacyAb) : ApiAb :=
  { id := index + 1
    name := ab.name
    generic_name := none
    category := detectCategory ab.name
    agent_type := detectAgentType ab.name
    generation := detectGeneration ab.name
    covered_pathogens :=
      (ab.coverage.filter (fun p => p.2.truthy)).map Prod.fst ++
      (ab.resistance.filter (fun p => p.2.truthy)).map Prod.fst
    penetration_sites := (ab.penetration.filter (fun p => p.2)).map Prod.fst
    legacy := some ab }

/-- `getAllAntibiotics` in fallback mode: transform the whole bundled
catalog. -/
def getAllAntibioticsFallback (catalog : List LegacyAb) : List ApiAb :=
  catalog.mapIdx (fun i ab => transformLegacy i ab)

/-- `searchByCoverage` in fallback mode, as a function of the already
loaded unified catalog: empty code list returns everything, otherwise
every code must occur in `covered_pathogens`. -/
def searchByCoverage (all : List ApiAb) (pathogenCodes : List String) : List ApiAb :=
  if pathogenCodes.isEmpty then all
  else all.filter (fun ab => pathogenCodes.all (fun code => ab.covered_pathogens.contains code))

/-- The fixed penetration-site code set used by `updateUI` in `script.js`. -/
def penetrationSitesUI : List String := ["BBB", "Bili", "UTI"]

/-- The per-site test of `updateUI`'s client-side penetration filter. -/
def sitePass (ab : ApiAb) (site : String) : Bool :=
  ab.penetration_sites.contains site ||
    (match ab.legacy with
     | some lg => lookupPen lg.penetration site
     | none => false)

/-- The filtering pipeline of `updateUI` (`script.js`): split criteria
into pathogen codes and penetration-site codes, search by coverage, then
post-filter on penetration sites. -/
def updateUIFilter (all : List ApiAb) (criteria : List String) : List ApiAb :=
  let pathogenCriteria := criteria.filter (fun c => !penetrationSitesUI.contains c)
  let siteCriteria := criteria.filter (fun c => penetrationSitesUI.contains c)
  let results := searchByCoverage all pathogenCriteria
  if siteCriteria.isEmpty then results
  else results.filter (fun ab => siteCriteria.all (fun site => sitePass ab site))

/-- The in-page legacy filter `filterAntibiotics` (oldest script
generation): every criterion must be truthy in coverage, resistance or
penetration. -/
def filterAntibiotics (catalog : List LegacyAb) (criteria : List String) : List LegacyAb :=
  if criteria.isEmpty then catalog
  else catalog.filter (fun anti =>
    criteria.all (fun c =>
      (lookupTruthy anti.coverage c || lookupTruthy anti.resistance c) || lookupPen anti.penetration c))

/-- The claim's (spec-side) matching predicate for one criterion: non-empty
in the coverage map, non-empty in the resistance map, or truthy in the
penetration map — regardless of which partition the code falls in. -/
def claimC1Matches (ab : LegacyAb) (c : String) : Bool :=
  lookupTruthy ab.coverage c || lookupTruthy ab.resistance c || lookupPen ab.penetration c

/-- The per-criterion test actually implemented by the `updateUI`
pipeline: penetration-site codes are checked by `sitePass`, every other
code against `covered_pathogens`. -/
def codeOk (ab : ApiAb) (c : String) : Bool :=
  if penetrationSitesUI.contains c then sitePass ab c
  else ab.covered_pathogens.contains c

/-- The amended claim's per-criterion test, phrased on the legacy maps:
codes in the fixed set `{BBB, Bili, UTI}` must be truthy in the
penetration map; all other codes must be non-empty in the coverage or
resistance map. -/
def claimC1AmendedMatches (lg : LegacyAb) (c : String) : Bool :=
  if penetrationSitesUI.contains c then lookupPen lg.penetration c
  else lookupTruthy lg.coverage c || lookupTruthy lg.resistance c

/-! ### Dosage data model (API detail format) and the dosage resolver -/

/-- One dialysis dosage entry of a regimen. -/
structure DialysisDosage where
  dialysis_type : String
  dose_text : String
deriving DecidableEq, Repr

/-- One CrCl-banded dose value of a regimen. -/
structure DoseValue where
  crcl_range_label : String
  dose_text : String
deriving DecidableEq, Repr

/-- A normalized dosing regimen. -/
structure Regimen where
  id : Nat
  route : String
  indication : String
  is_preferred : Bool
  sort_order : Nat
  dosage_values : List DoseValue
  dialysis_dosages : List DialysisDosage
deriving DecidableEq, Repr

/-- A clinical note in the API format. -/
structure Note where
  id : Nat
  note_type : String
  content : String
deriving DecidableEq, Repr

/-- A detailed antibiotic record as consumed by `renderResults`
(summary fields merged with the detail fetch; optional fields may be
absent on summary-only records). -/
structure AntiDetail where
  id : Nat
  name : String
  generic_name : Option String
  category : String
  agent_type : String
  generation : Option String
  covered_pathogens : List String
  penetration_sites : List String
  legacy : Option LegacyAb
  regimens : Option (List Regimen)
  dialysis_dosages : Option (List DialysisDosage)
  dialysis_dosages_legacy : List (String × String)
  notes : List Note
deriving DecidableEq, Repr

/-- `_parseRoute` of the API client. -/
def parseRoute (indication : String) : String :=
  if indication = "" then "IV"
  else
    let u := indication.toUpper
    if jsIncludes u "IV/PO" || jsIncludes u "PO/IV" then "IV/PO"
    else if jsIncludes u "IV/IM" then "IV/IM"
    else if jsIncludes u "IV" then "IV"
    else if jsIncludes u "PO" then "PO"
    else if jsIncludes u "IM" then "IM"
    else "IV"

/-- `_parseIndication` of the API client: strip a leading route token
(first matching alternative of the regex, then whitespace), one leading
`(`, one trailing `)`, trim, defaulting to `"standard"`. -/
def parseIndication (indication : String) : String :=
  if indication = "" then "standard"
  else
    let s1 :=
      match ["IV/PO", "PO/IV", "IV/IM", "IV", "PO", "IM", "INHL"].find? (fun p => p.isPrefixOf indication) with
      | some p => (indication.drop p.length).dropWhile Char.isWhitespace
      | none => indication
    let s2 := if s1.startsWith "(" then s1.drop 1 else s1
    let s3 := if s2.endsWith ")" then s2.dropRight 1 else s2
    let s4 := s3.trim
    if s4 = "" then "standard" else s4

/-- `getAntibiotic` in fallback mode builds the detail record from the
legacy record at position `index`. -/
def detailFromLegacy (index : Nat) (ab : LegacyAb) : AntiDetail :=
  let s := transformLegacy index ab
  { id := s.id
    name := s.name
    generic_name := s.generic_name
    category := s.category
    agent_type := s.agent_type
    generation := s.generation
    covered_pathogens := s.covered_pathogens
    penetration_sites := s.penetration_sites
    legacy := s.legacy
    regimens := some (ab.dosages.mapIdx (fun i d =>
      { id := i
        route := parseRoute d.indication
        indication := parseIndication d.indication
        is_preferred := d.preferred
        sort_order := i
        dosage_values := [{ crcl_range_label := "Normal", dose_text := d.dose }]
        dialysis_dosages := [] }))
    dialysis_dosages := none
    dialysis_dosages_legacy := ab.dialysisDosages
    notes := if ab.comments ≠ "" then [{ id := 1, note_type := "general", content := ab.comments }] else [] }

/-- `getAntibiotic` in fallback mode: 1-based index into the bundled
catalog, `none` outside `1 .. catalog.length`. -/
def getAntibioticFallback (catalog : List LegacyAb) (id : Int) : Option AntiDetail :=
  if 0 < id ∧ id ≤ catalog.length then
    (catalog.get? (id - 1).toNat).map (fun ab => detailFromLegacy (id - 1).toNat ab)
  else none

/-- One rendered dosage line (indication label, dose text, preferred flag). -/
structure DisplayLine where
  indication : String
  dose : String
  preferred : Bool
deriving DecidableEq, Repr

/-- `_renderRegimens`: one line per regimen, joining dose texts with a
comma, the route and indication with a dash, `"No data"` when the joined
dose text is empty. -/
def renderRegimenLines (regimens : List Regimen) : List DisplayLine :=
  regimens.map (fun r =>
    let doseTexts := String.intercalate ", " (r.dosage_values.map (fun dv => dv.dose_text))
    let displayIndication := String.intercalate " - " ([r.route, r.indication].filter (fun s => s ≠ ""))
    { indication := displayIndication
      dose := if doseTexts = "" then "No data" else doseTexts
      preferred := r.is_preferred })

/-- Legacy normal-dose lines of `renderResults` (the `data.js` fallback
branch). -/
def legacyNormalLines : Option LegacyAb → List DisplayLine
  | some lg =>
      if lg.dosages.length > 0 then
        lg.dosages.map (fun d => { indication := d.indication, dose := d.dose, preferred := d.preferred })
      else []
  | none => []

/-- `const allDialysisDosages = anti.dialysis_dosages || (anti.regimens
|| []).flatMap(r => r.dialysis_dosages || [])` of `renderResults`. -/
def gatherDialysisDosages (anti : AntiDetail) : List DialysisDosage :=
  match anti.dialysis_dosages with
  | some l => l
  | none => (anti.regimens.getD []).flatMap (fun r => r.dialysis_dosages)

/-- The dosage-resolution logic of `renderResults` for one antibiotic:
normal-regimen lines (only when no dialysis) and dialysis lines (only
when a dialysis modality is selected). -/
def resolveDosing (anti : AntiDetail) (dialysisStatus : String) : List DisplayLine × List DisplayLine :=
  let allDialysisDosages := gatherDialysisDosages anti
  let normal : List DisplayLine :=
    if dialysisStatus = "none" then
      match anti.regimens with
      | some rs => if rs.length > 0 then renderRegimenLines rs else legacyNormalLines anti.legacy
      | none => legacyNormalLines anti.legacy
    else []
  let dialysis : List DisplayLine :=
    if dialysisStatus ≠ "none" then
      if allDialysisDosages.length > 0 then
        (allDialysisDosages.filter (fun d => d.dialysis_type == dialysisStatus)).map
          (fun d => { indication := d.dialysis_type, dose := d.dose_text, preferred := true })
      else
        match anti.legacy with
        | some lg =>
            match lg.dialysisDosages.lookup dialysisStatus with
            | some txt => if txt = "" then [] else [{ indication := dialysisStatus, dose := txt, preferred := true }]
            | none => []
        | none => []
    else []
  (normal, dialysis)

/-! ### Renal function estimator (`calculateCrCl`) -/

/-- `Number.prototype.toFixed(1)` viewed as exact rounding of a rational
to one decimal place (nearest, ties up). -/
def roundTo1 (q : ℚ) : ℚ := (round (q * 10) : ℤ) / 10

/-- `calculateCrCl` of `script.js`.  `parseFloat` results are modelled as
`Option ℚ` (`none` = `NaN`); the JS falsiness test `!age` on a parsed
number is `none` or `some 0`.  The returned display string is modelled
as the rounded rational it denotes. -/
def calculateCrCl (manualOn : Bool) (manualVal : Option ℚ) (female : Bool)
    (age weight cr : Option ℚ) : Option ℚ :=
  if manualOn then
    match manualVal with
    | some v => if v ≤ 0 then none else some (roundTo1 v)
    | none => none
  else
    match age, weight, cr with
    | some a, some w, some c =>
        if a = 0 ∨ w = 0 ∨ c = 0 then none
        else
          let crcl := ((140 - a) * w) / (72 * c)
          let crcl := if female then crcl * (85 / 100) else crcl
          some (roundTo1 crcl)
    | _, _, _ => none

/-! ### Coverage accounting (`updateCoveragePanel`) -/

/-- The `ALL_PATHOGENS` vocabulary of `script.js` (code ↦ display name). -/
def ALL_PATHOGENS : List (String × String) :=
  [("Strep", "Streptococcus"), ("MSSA", "MSSA"), ("Efc", "E. faecalis"),
   ("Efm", "E. faecium"), ("GNB", "GNB (一般)"), ("Enbac", "Enterobacter"),
   ("PsA", "Pseudomonas"), ("Anae", "厭氧菌"), ("Atyp", "Atypical"),
   ("MRSA", "MRSA"), ("ESBL", "ESBL"), ("VRE", "VRE"),
   ("MDRAB", "MDRAB"), ("CRKP", "CRKP")]

/-- Truthiness of `ALL_PATHOGENS[code]`. -/
def vocabTruthy (code : String) : Bool :=
  match ALL_PATHOGENS.lookup code with
  | some s => s ≠ ""
  | none => false

/-- `new Set(l)` as a first-occurrence deduplicated list (JS sets iterate
in insertion order). -/
def jsSetOfList (l : List String) : List String :=
  l.foldl (fun acc x => if acc.contains x then acc else acc ++ [x]) []

/-- `relevantPathogens` of `updateCoveragePanel`: the user's vocabulary
pathogen criteria, or the whole vocabulary when none are selected. -/
def relevantPathogens (pathogenCriteria : List String) : List String :=
  if pathogenCriteria.length > 0 then jsSetOfList (pathogenCriteria.filter vocabTruthy)
  else jsSetOfList (ALL_PATHOGENS.map Prod.fst)

/-- State of the coverage accumulation: the `coverageMap` over the
relevant pathogens and the `bonusCoverage` object. -/
structure CovState where
  covMap : List (String × (Bool × JVal))
  bonus : List (String × (Bool × JVal))
deriving DecidableEq, Repr

/-- `coverageMap` initialization: every relevant pathogen uncovered. -/
def covMapInit (relevant : List String) : List (String × (Bool × JVal)) :=
  relevant.map (fun k => (k, (false, JVal.str "")))

/-- Does the association list have the key (JS `obj[k] !== undefined`)? -/
def hasKey (m : List (String × (Bool × JVal))) (k : String) : Bool :=
  m.any (fun p => p.1 == k)

/-- Overwrite the entry of an existing key. -/
def setExisting (m : List (String × (Bool × JVal))) (k : String) (lvl : JVal) :
    List (String × (Bool × JVal)) :=
  m.map (fun p => if p.1 == k then (p.1, (true, lvl)) else p)

/-- JS object write `b[k] = {covered: true, level: lvl}`: overwrite in
place, or append a new key. -/
def bonusSet (b : List (String × (Bool × JVal))) (k : String) (lvl : JVal) :
    List (String × (Bool × JVal)) :=
  if hasKey b k then b.map (fun p => if p.1 == k then (p.1, (true, lvl)) else p)
  else b ++ [(k, (true, lvl))]

/-- Record one covering code at one level: update `coverageMap` when the
code is relevant, otherwise possibly record bonus coverage. -/
def stepCode (hasCrit : Bool) (relevant : List String) (st : CovState)
    (code : String) (lvl : JVal) : CovState :=
  if hasKey st.covMap code then { st with covMap := setExisting st.covMap code lvl }
  else if hasCrit && vocabTruthy code && !relevant.contains code then
    { st with bonus := bonusSet st.bonus code lvl }
  else st

/-- Process one selected antibiotic: its normalized `covered_pathogens`
(level `"v"`), then its legacy coverage and resistance maps (only
non-empty levels). -/
def stepAnti (hasCrit : Bool) (relevant : List String) (st : CovState)
    (anti : ApiAb) : CovState :=
  let st1 := anti.covered_pathogens.foldl
    (fun s code => stepCode hasCrit relevant s code (JVal.str "v")) st
  match anti.legacy with
  | none => st1
  | some lg =>
      let st2 := lg.coverage.foldl
        (fun s p => if p.2.truthy then stepCode hasCrit relevant s p.1 p.2 else s) st1
      lg.resistance.foldl
        (fun s p => if p.2.truthy then stepCode hasCrit relevant s p.1 p.2 else s) st2

/-- One entry of the covered output (`{key, level, bonus}`). -/
structure CoveredEntry where
  key : String
  level : JVal
  bonus : Bool
deriving DecidableEq, Repr

/-- JS `coverageMap[key] && coverageMap[key].covered`. -/
def isCov (cm : List (String × (Bool × JVal))) (k : String) : Bool :=
  match cm.lookup k with
  | some (cov, _) => cov
  | none => false

/-- JS `coverageMap[key].level` (read only where the key is present). -/
def lvlOf (cm : List (String × (Bool × JVal))) (k : String) : JVal :=
  match cm.lookup k with
  | some (_, lvl) => lvl
  | none => .str ""

/-- The coverage accounting of `updateCoveragePanel` as a pure function:
given the selected antibiotics and the user's pathogen criteria, the
covered entries (relevant ones first, then bonus ones) and the uncovered
relevant pathogen codes. -/
def computeCoverage (selectedAntiList : List ApiAb) (pathogenCriteria : List String) :
    List CoveredEntry × List String :=
  let hasCrit := pathogenCriteria.length > 0
  let relevant := relevantPathogens pathogenCriteria
  let st := selectedAntiList.foldl (stepAnti hasCrit relevant) ⟨covMapInit relevant, []⟩
  let pair := relevant.foldl
    (fun (acc : List CoveredEntry × List String) k =>
      if isCov st.covMap k then
        (acc.1 ++ [{ key := k, level := lvlOf st.covMap k, bonus := false }], acc.2)
      else (acc.1, acc.2 ++ [k]))
    ([], [])
  (pair.1 ++ st.bonus.map (fun p => { key := p.1, level := p.2.2, bonus := true }), pair.2)

/-- The accumulated coverage state of `computeCoverage` (the value of
`coverageMap` and `bonusCoverage` after the loop over the selected
antibiotics). -/
def covStateOf (sel : List ApiAb) (crit : List String) : CovState :=
  sel.foldl (stepAnti (crit.length > 0) (relevantPathogens crit))
    ⟨covMapInit (relevantPathogens crit), []⟩

/-! ### Display ordering and selection pruning -/

/-- The `CATEGORY_ORDER` rank table of `script.js`. -/
def CATEGORY_ORDER : List (String × Nat) :=
  [("penicillin", 1), ("cephalosporin", 2), ("carbapenem", 3),
   ("fluoroquinolone", 4), ("quinolone", 4), ("glycopeptide", 5),
   ("oxazolidinone", 6), ("tetracycline", 7), ("macrolide", 8),
   ("lincosamide", 9), ("polymyxin", 10), ("aminoglycoside", 11),
   ("other", 12)]

/-- `CATEGORY_ORDER[category] || 99` (all table ranks are positive, so
`|| 99` is exactly the default for unlisted categories). -/
def categoryRank (category : String) : Nat :=
  (CATEGORY_ORDER.lookup category).getD 99

/-- The comparator of `updateMultiselectOptions`' sort, as a boolean
`≤`-test on category ranks. -/
def displayLE (a b : ApiAb) : Bool :=
  decide (categoryRank a.category ≤ categoryRank b.category)

/-- The display sort: a stable sort by category rank (ECMAScript
`Array.prototype.sort` is required to be stable). -/
def sortForDisplay (l : List ApiAb) : List ApiAb :=
  l.mergeSort displayLE

/-- The selection-pruning step of `updateMultiselectOptions`: an empty
filtered list clears the selection, otherwise selected names missing
from the filtered list are dropped. -/
def pruneSelected (selected : List String) (filtered : List ApiAb) : List String :=
  if filtered.length = 0 then []
  else selected.filter (fun name => (filtered.map (fun a => a.name)).contains name)

/-! ### Concrete records used by witnesses and counterexamples -/

/-- The `Ceftriaxone (3°)` record of `data.js`, verbatim. -/
def ceftriaxone : LegacyAb :=
  { name := "Ceftriaxone (3°)"
    coverage := [("Strep", .str "v"), ("MSSA", .str "v"), ("Efc", .str "v")]
    resistance := []
    penetration := [("BBB", true), ("Pros", true), ("Endo", true), ("Bili", true)]
    dosages :=
      [{ indication := "IV/IM (General)", dose := "1-2g Q24H", preferred := true },
       { indication := "IV (Meningitis)", dose := "2g Q12H", preferred := false },
       { indication := "IV (Severe infection)", dose := "2g Q24H", preferred := false }]
    dialysisDosages :=
      [("HD", "No adjustment needed (not dialyzed)"), ("PD", "No adjustment needed"), ("CRRT", "2g Q12-24H")]
    comments := "Once-daily dosing advantage. Good CNS penetration. Caution with neonates (bilirubin displacement)." }

/-- A drug whose only dialysis data is the legacy `dialysisDosages.HD`
entry (concrete scenario 4 of the spec). -/
def legacyHDDrug : LegacyAb :=
  { name := "Drug A"
    coverage := [("Strep", .str "v")]
    resistance := []
    penetration := []
    dosages := [{ indication := "IV (General)", dose := "1g Q8H", preferred := true }]
    dialysisDosages := [("HD", "500mg Q24H")]
    comments := "" }

/-- A detail record with regimen-level dialysis entries for `PD` only,
plus a legacy `dialysisDosages.HD` entry: used to separate "no entry
matches the modality" from "no entries were gathered". -/
def antiMix : AntiDetail :=
  { id := 1
    name := "Drug B"
    generic_name := none
    category := "other"
    agent_type := "antibacterial"
    generation := none
    covered_pathogens := ["Strep"]
    penetration_sites := []
    legacy := some { name := "Drug B"
                     coverage := [("Strep", .str "v")]
                     resistance := []
                     penetration := []
                     dosages := []
                     dialysisDosages := [("HD", "500mg Q24H")]
                     comments := "" }
    regimens := some
      [{ id := 0
         route := "IV"
         indication := "standard"
         is_preferred := true
         sort_order := 0
         dosage_values := [{ crcl_range_label := "Normal", dose_text := "1g Q8H" }]
         dialysis_dosages := [{ dialysis_type := "PD", dose_text := "1g Q48H" }] }]
    dialysis_dosages := none
    dialysis_dosages_legacy := [("HD", "500mg Q24H")]
    notes := [] }

/-- A legacy record covering only `MRSA` (via the resistance map). -/
def drugX : LegacyAb :=
  { name := "X", coverage := [], resistance := [("MRSA", .str "v")]
    penetration := [], dosages := [], dialysisDosages := [], comments := "" }

/-- A legacy record covering only `ESBL` (via the resistance map). -/
def drugY : LegacyAb :=
  { name := "Y", coverage := [], resistance := [("ESBL", .str "v")]
    penetration := [], dosages := [], dialysisDosages := [], comments := "" }

/-! ### Helper lemmas -/

/-- Membership in the truthy-key projection of a legacy string-valued map
is truthy lookup, provided the keys are unique (JS objects cannot repeat
keys). -/
theorem mem_truthyKeys_iff (m : List (String × JVal)) (c : String)
    (hnd : (m.map Prod.fst).Nodup) :
    c ∈ (m.filter (fun p => p.2.truthy)).map Prod.fst ↔ lookupTruthy m c = true := by
  induction m with
  | nil => simp [lookupTruthy]
  | cons p t ih =>
      obtain ⟨k, v⟩ := p
      simp only [List.map_cons, List.nodup_cons] at hnd
      by_cases hck : c = k
      · subst hck
        have hnot : c ∉ (t.filter (fun p => p.2.truthy)).map Prod.fst := by
          intro hmem
          exact hnd.1 (by
            rcases List.mem_map.mp hmem with ⟨q, hq, hq1⟩
            exact List.mem_map.mpr ⟨q, (List.mem_filter.mp hq).1, hq1⟩)
        cases hv : v.truthy <;>
          simp [lookupTruthy, List.filter_cons, hv, hnot]
      · have hbeq : (c == k) = false := by simp [hck]
        cases hv : v.truthy <;>
          simp [lookupTruthy, List.filter_cons, hv, List.lookup_cons, hbeq, hck,
            lookupTruthy.eq_def] at ih ⊢ <;>
          exact ih hnd.2

/-- Membership in the truthy-key projection of a legacy boolean map is
truthy lookup, provided the keys are unique. -/
theorem mem_penKeys_iff (m : List (String × Bool)) (c : String)
    (hnd : (m.map Prod.fst).Nodup) :
    c ∈ (m.filter (fun p => p.2)).map Prod.fst ↔ lookupPen m c = true := by
  induction m with
  | nil => simp [lookupPen]
  | cons p t ih =>
      obtain ⟨k, v⟩ := p
      simp only [List.map_cons, List.nodup_cons] at hnd
      by_cases hck : c = k
      · subst hck
        have hnot : c ∉ (t.filter (fun p => p.2)).map Prod.fst := by
          intro hmem
          exact hnd.1 (by
            rcases List.mem_map.mp hmem with ⟨q, hq, hq1⟩
            exact List.mem_map.mpr ⟨q, (List.mem_filter.mp hq).1, hq1⟩)
        cases hv : v <;>
          simp [lookupPen, List.filter_cons, hv, hnot]
      · have hbeq : (c == k) = false := by simp [hck]
        cases hv : v <;>
          simp [lookupPen, List.filter_cons, hv, List.lookup_cons, hbeq, hck] at ih ⊢ <;>
          exact ih hnd.2

/-! ### C3: empty criteria return the full catalog -/

/-- C3: for every catalog, filtering with an empty criteria list returns
the full catalog unchanged, both in the API-client coverage search
(`searchByCoverage`) and in the in-page legacy filter
(`filterAntibiotics`). -/
theorem empty_criteria_return_catalog (apiCatalog : List ApiAb) (legacyCatalog : List LegacyAb) :
    searchByCoverage apiCatalog [] = apiCatalog ∧ filterAntibiotics legacyCatalog [] = legacyCatalog :=
  ⟨rfl, rfl⟩

/-! ### C9: pruned selection is a subset of the filtered list -/

/-- C9: after the pruning step of `updateMultiselectOptions`, every
selected antibiotic name occurs among the names of the filtered list,
and an empty filtered list clears the selection entirely. -/
theorem pruneSelected_subset (selected : List String) (filtered : List ApiAb) :
    (∀ n ∈ pruneSelected selected filtered, n ∈ filtered.map (fun a => a.name)) ∧
    (filtered = [] → pruneSelected selected filtered = []) := by
  constructor
  · intro n hn
    unfold pruneSelected at hn
    split at hn
    · simp at hn
    · have h := List.of_mem_filter hn
      exact List.elem_iff.mp h
  · intro h
    subst h
    rfl

/-- C9 witness: a concrete pruning instance via `pruneSelected_subset`. -/
theorem pruneSelected_subset_witness :
    "Ceftriaxone (3°)" ∈ (getAllAntibioticsFallback [ceftriaxone]).map (fun a => a.name) ∧
    pruneSelected ["Oxacillin"] [] = [] := by
  constructor
  · exact (pruneSelected_subset ["Ceftriaxone (3°)"] (getAllAntibioticsFallback [ceftriaxone])).1
      "Ceftriaxone (3°)" (by decide)
  · exact (pruneSelected_subset ["Oxacillin"] []).2 rfl

/-! ### C10: fallback id assignment and detail lookup round-trip -/

/-- C10: in fallback mode, ids are the legacy position plus one:
`getAntibiotic (i+1)` returns a record carrying the name of the `i`-th
legacy record, and every id outside `1 .. length` returns `none`. -/
theorem getAntibioticFallback_roundtrip (catalog : List LegacyAb) :
    (∀ i : Nat, ∀ h : i < catalog.length,
        ∃ d, getAntibioticFallback catalog ((i : Int) + 1) = some d ∧
          d.name = (catalog.get ⟨i, h⟩).name) ∧
    (∀ id : Int, id ≤ 0 ∨ (catalog.length : Int) < id →
        getAntibioticFallback catalog id = none) := by
  constructor
  · intro i h
    have hcond : 0 < (i : Int) + 1 ∧ (i : Int) + 1 ≤ catalog.length := by
      constructor
      · positivity
      · omega
    have htn : ((i : Int) + 1 - 1).toNat = i := by omega
    refine ⟨detailFromLegacy i (catalog.get ⟨i, h⟩), ?_, rfl⟩
    rw [getAntibioticFallback, if_pos hcond, htn, List.get?_eq_get h]
    rfl
  · intro id hid
    rw [getAntibioticFallback, if_neg]
    intro hcond
    omega

/-- C10 witness: the round-trip at a one-element catalog. -/
theorem getAntibioticFallback_roundtrip_witness :
    (∃ d, getAntibioticFallback [ceftriaxone] 1 = some d ∧ d.name = "Ceftriaxone (3°)") ∧
    getAntibioticFallback [ceftriaxone] 0 = none ∧
    getAntibioticFallback [ceftriaxone] 2 = none := by
  refine ⟨?_, ?_, ?_⟩
  · exact (getAntibioticFallback_roundtrip [ceftriaxone]).1 0 (by decide)
  · exact (getAntibioticFallback_roundtrip [ceftriaxone]).2 0 (by norm_num)
  · exact (getAntibioticFallback_roundtrip [ceftriaxone]).2 2 (by norm_num)

/-! ### C5: Cockcroft-Gault formula -/

/-- C5: with manual override off and age, weight and creatinine present
and non-zero, `calculateCrCl` returns `((140 - age) * weight) / (72 *
creatinine)`, times `0.85` for females, rounded to one decimal place;
a missing value or a value of exactly `0` yields `null`. -/
theorem calculateCrCl_formula (mv : Option ℚ) (female : Bool) (a w c : ℚ)
    (ha : a ≠ 0) (hw : w ≠ 0) (hc : c ≠ 0) :
    calculateCrCl false mv female (some a) (some w) (some c)
        = some (roundTo1 (if female then ((140 - a) * w) / (72 * c) * (85 / 100)
                          else ((140 - a) * w) / (72 * c))) ∧
    (∀ w' c' : Option ℚ, calculateCrCl false mv female (some 0) w' c' = none) ∧
    (∀ c' : Option ℚ, calculateCrCl false mv female (some a) (some 0) c' = none) ∧
    calculateCrCl false mv female (some a) (some w) (some 0) = none ∧
    (∀ w' c' : Option ℚ, calculateCrCl false mv female none w' c' = none) := by
  refine ⟨?_, ?_, ?_, ?_, ?_⟩
  · simp [calculateCrCl, ha, hw, hc]
  · intro w' c'
    cases w' <;> cases c' <;> simp [calculateCrCl]
  · intro c'
    cases c' <;> simp [calculateCrCl]
  · simp [calculateCrCl]
  · intro w' c'
    cases w' <;> cases c' <;> simp [calculateCrCl]

/-- C5 witness: age 70, weight 60, creatinine 1.0 gives 58.3 for a male
and 49.6 for a female patient. -/
theorem calculateCrCl_formula_witness :
    calculateCrCl false none false (some 70) (some 60) (some 1) = some (583 / 10) ∧
    calculateCrCl false none true (some 70) (some 60) (some 1) = some (496 / 10) := by
  constructor
  · rw [(calculateCrCl_formula none false 70 60 1 (by norm_num) (by norm_num) (by norm_num)).1]
    norm_num [roundTo1, round_eq]
  · rw [(calculateCrCl_formula none true 70 60 1 (by norm_num) (by norm_num) (by norm_num)).1]
    norm_num [roundTo1, round_eq]

/-! ### C6: manual CrCl override -/

/-- C6: with manual override on, `calculateCrCl` is `null` exactly when
the manual input does not parse to a finite value strictly greater than
zero, and otherwise returns the parsed value rounded to one decimal
place. -/
theorem calculateCrCl_manual (mv : Option ℚ) (female : Bool) (age weight cr : Option ℚ) :
    (calculateCrCl true mv female age weight cr = none ↔ ¬ ∃ v, mv = some v ∧ 0 < v) ∧
    (∀ v : ℚ, mv = some v → 0 < v →
      calculateCrCl true mv female age weight cr = some (roundTo1 v)) := by
  constructor
  · cases mv with
    | none => simp [calculateCrCl]
    | some v =>
        by_cases hv : v ≤ 0 <;> simp [calculateCrCl, hv, not_lt]
  · intro v hmv hv
    subst hmv
    simp [calculateCrCl, not_le.mpr hv]

/-- C6 witness: manual value 12.4 is accepted and rounded to itself;
manual value 0 is rejected. -/
theorem calculateCrCl_manual_witness :
    calculateCrCl true (some (62 / 5)) false none none none = some (62 / 5) ∧
    calculateCrCl true (some 0) false none none none = none := by
  constructor
  · rw [(calculateCrCl_manual (some (62 / 5)) false none none none).2 (62 / 5) rfl (by norm_num)]
    norm_num [roundTo1, round_eq]
  · rw [(calculateCrCl_manual (some 0) false none none none).1.mpr]
    rintro ⟨v, hv, hv0⟩
    cases hv
    exact lt_irrefl 0 hv0

/-! ### C7: legacy normalization before the coverage filter -/

/-- C7: `_transformLegacy` normalizes a legacy record so that
`covered_pathogens` holds exactly the keys with a non-empty (truthy)
value in the legacy coverage or resistance map, and `penetration_sites`
exactly the keys with a truthy value in the legacy penetration map
(key uniqueness is a JS-object invariant). -/
theorem transformLegacy_normalized (i : Nat) (ab : LegacyAb) (c : String)
    (hcov : (ab.coverage.map Prod.fst).Nodup)
    (hres : (ab.resistance.map Prod.fst).Nodup)
    (hpen : (ab.penetration.map Prod.fst).Nodup) :
    (c ∈ (transformLegacy i ab).covered_pathogens ↔
      lookupTruthy ab.coverage c = true ∨ lookupTruthy ab.resistance c = true) ∧
    (c ∈ (transformLegacy i ab).penetration_sites ↔ lookupPen ab.penetration c = true) := by
  constructor
  · simp only [transformLegacy, List.mem_append]
    rw [mem_truthyKeys_iff _ _ hcov, mem_truthyKeys_iff _ _ hres]
  · simp only [transformLegacy]
    exact mem_penKeys_iff _ _ hpen

/-- C7 witness: on the Ceftriaxone record, `MSSA` enters
`covered_pathogens` and `Pros` enters `penetration_sites`. -/
theorem transformLegacy_normalized_witness :
    "MSSA" ∈ (transformLegacy 5 ceftriaxone).covered_pathogens ∧
    "Pros" ∈ (transformLegacy 5 ceftriaxone).penetration_sites :=
  ⟨(transformLegacy_normalized 5 ceftriaxone "MSSA" (by decide) (by decide) (by decide)).1.mpr
      (Or.inl (by decide)),
   (transformLegacy_normalized 5 ceftriaxone "Pros" (by decide) (by decide) (by decide)).2.mpr
      (by decide)⟩

/-! ### C2: dialysis dosage resolution -/

/-- C2 (amended): with a dialysis modality selected, `renderResults`
emits zero normal-regimen entries; it keeps exactly the gathered dialysis
entries whose type equals the modality, and consults the legacy flat
`dialysisDosages` map only when no dialysis entries were gathered at all
(not merely when none match the modality). -/
theorem resolveDosing_dialysis (anti : AntiDetail) (m txt : String) (hm : m ≠ "none") :
    (resolveDosing anti m).1 = [] ∧
    (gatherDialysisDosages anti ≠ [] →
      (resolveDosing anti m).2 =
        ((gatherDialysisDosages anti).filter (fun d => d.dialysis_type == m)).map
          (fun d => { indication := d.dialysis_type, dose := d.dose_text, preferred := true })) ∧
    (gatherDialysisDosages anti = [] →
      anti.legacy.bind (fun lg => lg.dialysisDosages.lookup m) = some txt → txt ≠ "" →
      (resolveDosing anti m).2 = [{ indication := m, dose := txt, preferred := true }]) := by
  refine ⟨?_, ?_, ?_⟩
  · simp [resolveDosing, hm]
  · intro hg
    have hlen : 0 < (gatherDialysisDosages anti).length := List.length_pos.mpr hg
    simp [resolveDosing, hm, hlen]
  · intro hg hlk htxt
    cases hlg : anti.legacy with
    | none => rw [hlg] at hlk; simp at hlk
    | some lg =>
        rw [hlg] at hlk
        simp only [Option.some_bind] at hlk
        simp [resolveDosing, hm, hg, hlg, hlk, htxt]

/-- C2 counterexample: a drug whose gathered dialysis entries are all for
`PD` while its legacy map has an `HD` entry.  No kept entry matches
modality `HD` and the legacy key is present, yet the resolver emits no
dialysis entry at all — the legacy fallback is not taken. -/
theorem resolveDosing_modality_fallback_counterexample :
    gatherDialysisDosages antiMix ≠ [] ∧
    (gatherDialysisDosages antiMix).filter (fun d => d.dialysis_type == "HD") = [] ∧
    antiMix.legacy.bind (fun lg => lg.dialysisDosages.lookup "HD") = some "500mg Q24H" ∧
    resolveDosing antiMix "HD" = ([], []) :=
  ⟨by decide, by decide, by decide, by decide⟩

/-- C2 witness: modality `HD` on a drug whose only dialysis data is the
legacy `dialysisDosages.HD = "500mg Q24H"` yields exactly one dialysis
entry with that text and zero normal-regimen entries. -/
theorem resolveDosing_dialysis_witness :
    resolveDosing (detailFromLegacy 0 legacyHDDrug) "HD"
      = ([], [{ indication := "HD", dose := "500mg Q24H", preferred := true }]) := by
  have h := resolveDosing_dialysis (detailFromLegacy 0 legacyHDDrug) "HD" "500mg Q24H" (by decide)
  exact Prod.ext h.1 (h.2.2 (by decide) (by decide) (by decide))

/-! ### C1: the coverage filter -/

/-- Splitting a conjunction over a criteria list along a partition
predicate. -/
theorem all_ite_split (criteria : List String) (p f g : String → Bool) :
    criteria.all (fun c => if p c then g c else f c)
      = ((criteria.filter (fun c => !p c)).all f && (criteria.filter p).all g) := by
  induction criteria with
  | nil => rfl
  | cons a t ih =>
      cases h : p a <;>
        simp [List.filter_cons, h, ih, Bool.and_assoc, Bool.and_left_comm]

/-- Degenerate guard of the pipeline: skipping the filter on an empty
code list is the same as filtering by the (vacuous) conjunction. -/
theorem ifEmpty_filter_all (l : List ApiAb) (xs : List String) (F : ApiAb → String → Bool) :
    (if xs.isEmpty then l else l.filter (fun a => xs.all (fun x => F a x)))
      = l.filter (fun a => xs.all (fun x => F a x)) := by
  split
  · next h =>
      rw [List.isEmpty_iff.mp h]
      simp
  · rfl

/-- The `updateUI` pipeline is one filter by the conjunction of `codeOk`
over all criteria. -/
theorem updateUIFilter_eq_filter (all : List ApiAb) (criteria : List String) :
    updateUIFilter all criteria = all.filter (fun ab => criteria.all (codeOk ab)) := by
  have hsplit : ∀ ab : ApiAb, criteria.all (codeOk ab)
      = ((criteria.filter (fun c => !penetrationSitesUI.contains c)).all
            (fun c => ab.covered_pathogens.contains c)
         && (criteria.filter (fun c => penetrationSitesUI.contains c)).all
            (fun c => sitePass ab c)) := by
    intro ab
    exact all_ite_split criteria (fun c => penetrationSitesUI.contains c)
      (fun c => ab.covered_pathogens.contains c) (fun c => sitePass ab c)
  simp only [updateUIFilter, searchByCoverage]
  rw [ifEmpty_filter_all all _ (fun ab code => ab.covered_pathogens.contains code),
    ifEmpty_filter_all _ _ (fun ab site => sitePass ab site),
    List.filter_filter]
  apply List.filter_congr
  intro ab _
  rw [hsplit ab, Bool.and_comm]

/-- C1 (amended): in fallback mode the filter keeps an antibiotic iff
every criterion in the fixed set `{BBB, Bili, UTI}` is truthy in its
penetration map and every other criterion has a non-empty value in its
coverage or resistance map — penetration never satisfies a pathogen
code, and coverage/resistance never satisfy a site code. -/
theorem updateUIFilter_characterization (catalog : List LegacyAb) (criteria : List String)
    (hnd : ∀ ab ∈ catalog, (ab.coverage.map Prod.fst).Nodup ∧
      (ab.resistance.map Prod.fst).Nodup ∧ (ab.penetration.map Prod.fst).Nodup) :
    updateUIFilter (getAllAntibioticsFallback catalog) criteria
      = (getAllAntibioticsFallback catalog).filter
          (fun ab => criteria.all (fun c =>
            match ab.legacy with
            | some lg => claimC1AmendedMatches lg c
            | none => false)) := by
  rw [updateUIFilter_eq_filter]
  apply List.filter_congr
  intro ab hab
  rw [getAllAntibioticsFallback] at hab
  rcases List.mem_mapIdx.mp hab with ⟨i, hi, hab'⟩
  subst hab'
  obtain ⟨hcov, hres, hpen⟩ := hnd catalog[i] (List.getElem_mem hi)
  have hpt : ∀ c : String, codeOk (transformLegacy i catalog[i]) c
      = claimC1AmendedMatches catalog[i] c := by
    intro c
    by_cases hc : penetrationSitesUI.contains c
    · rw [codeOk, claimC1AmendedMatches, if_pos hc, if_pos hc, sitePass]
      simp only [transformLegacy]
      cases hl : lookupPen catalog[i].penetration c
      · have hcont : c ∉ (catalog[i].penetration.filter (fun p => p.2)).map Prod.fst := by
          rw [mem_penKeys_iff _ _ hpen, hl]
          simp
        simp [hcont]
      · simp
    · rw [codeOk, claimC1AmendedMatches, if_neg hc, if_neg hc]
      simp only [transformLegacy]
      have hmc := mem_truthyKeys_iff catalog[i].coverage c hcov
      have hmr := mem_truthyKeys_iff catalog[i].resistance c hres
      cases h1 : lookupTruthy catalog[i].coverage c <;>
        cases h2 : lookupTruthy catalog[i].resistance c <;>
          rw [h1] at hmc <;> rw [h2] at hmr <;>
          simp [hmc, hmr]
  show criteria.all (fun c => codeOk (transformLegacy i catalog[i]) c)
      = criteria.all (fun c => claimC1AmendedMatches catalog[i] c)
  exact congrArg criteria.all (funext hpt)

/-- C1 counterexample: against the claim's symmetric disjunction (with
`Pros` a penetration-site code), the Ceftriaxone record matches the
non-empty criteria list `["Pros"]` via its truthy penetration entry, yet
the filter returns the empty list: the code routes `Pros` to the
covered-pathogens check, where penetration does not count. -/
theorem updateUIFilter_spec_counterexample :
    claimC1Matches ceftriaxone "Pros" = true ∧
    updateUIFilter (getAllAntibioticsFallback [ceftriaxone]) ["Pros"] = [] :=
  ⟨by decide, by decide⟩

/-- C1 witness: the amended characterization instantiated on a concrete
catalog and criteria list. -/
theorem updateUIFilter_characterization_witness :
    updateUIFilter (getAllAntibioticsFallback [ceftriaxone]) ["MSSA", "Bili"]
      = (getAllAntibioticsFallback [ceftriaxone]).filter
          (fun ab => ["MSSA", "Bili"].all (fun c =>
            match ab.legacy with
            | some lg => claimC1AmendedMatches lg c
            | none => false)) := by
  apply updateUIFilter_characterization
  intro ab hab
  rw [List.mem_singleton] at hab
  subst hab
  exact ⟨by decide, by decide, by decide⟩

/-! ### C8: display ordering -/

/-- Transitivity of the display comparator. -/
theorem displayLE_trans (a b c : ApiAb) : displayLE a b → displayLE b c → displayLE a c := by
  simp only [displayLE, decide_eq_true_eq]
  omega

/-- Totality of the display comparator. -/
theorem displayLE_total (a b : ApiAb) : displayLE a b || displayLE b a := by
  simp only [displayLE, Bool.or_eq_true, decide_eq_true_eq]
  omega

/-- C8: `sortForDisplay` sorts by the fixed category rank table
(penicillin = 1 … other = 12, unlisted categories rank 99 and sort
last), is a permutation of its input, is stable (elements of equal rank
keep their incoming order), and is idempotent. -/
theorem sortForDisplay_spec (l : List ApiAb) :
    (sortForDisplay l).Pairwise (fun a b => categoryRank a.category ≤ categoryRank b.category) ∧
    (sortForDisplay l).Perm l ∧
    (∀ r : Nat, (sortForDisplay l).filter (fun a => categoryRank a.category == r)
        = l.filter (fun a => categoryRank a.category == r)) ∧
    sortForDisplay (sortForDisplay l) = sortForDisplay l ∧
    categoryRank "penicillin" = 1 ∧ categoryRank "other" = 12 ∧
    (∀ c : String, CATEGORY_ORDER.lookup c = none → categoryRank c = 99) := by
  refine ⟨?_, ?_, ?_, ?_, rfl, rfl, ?_⟩
  · exact (List.sorted_mergeSort displayLE_trans displayLE_total l).imp
      (fun h => by simpa [displayLE] using h)
  · exact List.mergeSort_perm l displayLE
  · intro r
    have hpair : (l.filter (fun a => categoryRank a.category == r)).Pairwise
        (fun a b => displayLE a b = true) := by
      apply List.pairwise_of_forall_mem_list
      intro a ha b hb
      have ha' := List.of_mem_filter ha
      have hb' := List.of_mem_filter hb
      simp only [beq_iff_eq] at ha' hb'
      simp only [displayLE, ha', hb', decide_eq_true_eq]
      exact le_refl r
    have hsub : List.Sublist (l.filter (fun a => categoryRank a.category == r)) (sortForDisplay l) :=
      List.sublist_mergeSort displayLE_trans displayLE_total hpair (List.filter_sublist l)
    have h1 : List.Sublist (l.filter (fun a => categoryRank a.category == r))
        ((sortForDisplay l).filter (fun a => categoryRank a.category == r)) := by
      have h2 := hsub.filter (fun a => categoryRank a.category == r)
      rwa [List.filter_filter, List.filter_congr (fun a _ => Bool.and_self _)] at h2
    have hlen : ((sortForDisplay l).filter (fun a => categoryRank a.category == r)).length
        = (l.filter (fun a => categoryRank a.category == r)).length :=
      ((List.mergeSort_perm l displayLE).filter _).length_eq
    exact (h1.eq_of_length hlen.symm).symm
  · exact List.mergeSort_of_sorted (List.sorted_mergeSort displayLE_trans displayLE_total l)
  · intro c hcl
    rw [categoryRank, hcl]
    rfl

/-- C8 witness: idempotence at a concrete two-element list and the
default rank at a concrete unlisted category. -/
theorem sortForDisplay_spec_witness :
    sortForDisplay (sortForDisplay [transformLegacy 0 drugX, transformLegacy 1 ceftriaxone])
      = sortForDisplay [transformLegacy 0 drugX, transformLegacy 1 ceftriaxone] ∧
    categoryRank "antifungal" = 99 :=
  ⟨(sortForDisplay_spec [transformLegacy 0 drugX, transformLegacy 1 ceftriaxone]).2.2.2.1,
   (sortForDisplay_spec []).2.2.2.2.2.2 "antifungal" rfl⟩

/-! ### C4: coverage accounting partitions the relevant pathogens -/

/-- A `new Set(...)` list has no duplicates. -/
theorem jsSetFold_nodup : ∀ (l acc : List String), acc.Nodup →
    (l.foldl (fun acc x => if acc.contains x then acc else acc ++ [x]) acc).Nodup := by
  intro l
  induction l with
  | nil => intro acc h; exact h
  | cons a t ih =>
      intro acc h
      simp only [List.foldl_cons]
      by_cases hc : acc.contains a
      · rw [if_pos hc]
        exact ih acc h
      · rw [if_neg hc]
        apply ih
        rw [List.nodup_append]
        refine ⟨h, List.nodup_singleton a, ?_⟩
        intro x hx hxa
        rw [List.mem_singleton] at hxa
        subst hxa
        exact hc (List.elem_iff.mpr hx)

/-- `jsSetOfList` has no duplicates. -/
theorem jsSetOfList_nodup (l : List String) : (jsSetOfList l).Nodup :=
  jsSetFold_nodup l [] List.nodup_nil

/-- The relevant-pathogen list has no duplicates. -/
theorem relevantPathogens_nodup (crit : List String) : (relevantPathogens crit).Nodup := by
  rw [relevantPathogens]
  split
  · exact jsSetOfList_nodup _
  · exact jsSetOfList_nodup _

/-- `stepCode` only ever inserts bonus keys outside the relevant set. -/
theorem stepCode_bonusKeys (hasCrit : Bool) (relevant : List String) (st : CovState)
    (code : String) (lvl : JVal) (h : ∀ p ∈ st.bonus, p.1 ∉ relevant) :
    ∀ p ∈ (stepCode hasCrit relevant st code lvl).bonus, p.1 ∉ relevant := by
  rw [stepCode]
  split
  · exact h
  · split
    · next hcond =>
        intro p hp
        rw [bonusSet] at hp
        split at hp
        · rcases List.mem_map.mp hp with ⟨q, hq, hq'⟩
          have hfst : p.1 = q.1 := by
            by_cases hb : (q.1 == code) = true
            · rw [if_pos hb] at hq'
              rw [← hq']
            · rw [if_neg hb] at hq'
              rw [← hq']
          rw [hfst]
          exact h q hq
        · rcases List.mem_append.mp hp with hp1 | hp2
          · exact h p hp1
          · rw [List.mem_singleton] at hp2
            subst hp2
            simp only [Bool.and_eq_true, Bool.not_eq_true'] at hcond
            intro hmem
            have ht : relevant.contains code = true := List.elem_iff.mpr hmem
            rw [ht] at hcond
            exact Bool.noConfusion hcond.2
    · exact h

/-- With no pathogen criteria selected, `stepCode` never records bonus
coverage. -/
theorem stepCode_bonus_of_not_hasCrit (relevant : List String) (st : CovState)
    (code : String) (lvl : JVal) :
    (stepCode false relevant st code lvl).bonus = st.bonus := by
  rw [stepCode]
  split
  · rfl
  · split
    · next hcond => exact Bool.noConfusion hcond
    · rfl

/-- `stepAnti` only ever inserts bonus keys outside the relevant set. -/
theorem stepAnti_bonusKeys (hasCrit : Bool) (relevant : List String) (st : CovState)
    (anti : ApiAb) (h : ∀ p ∈ st.bonus, p.1 ∉ relevant) :
    ∀ p ∈ (stepAnti hasCrit relevant st anti).bonus, p.1 ∉ relevant := by
  have hfold1 : ∀ (codes : List String) (st : CovState), (∀ p ∈ st.bonus, p.1 ∉ relevant) →
      ∀ p ∈ (codes.foldl (fun s code => stepCode hasCrit relevant s code (JVal.str "v")) st).bonus,
        p.1 ∉ relevant := by
    intro codes
    induction codes with
    | nil => intro st h; exact h
    | cons a t ih =>
        intro st h
        exact ih _ (stepCode_bonusKeys hasCrit relevant st a _ h)
  have hfold2 : ∀ (entries : List (String × JVal)) (st : CovState),
      (∀ p ∈ st.bonus, p.1 ∉ relevant) →
      ∀ p ∈ (entries.foldl
          (fun s q => if q.2.truthy then stepCode hasCrit relevant s q.1 q.2 else s) st).bonus,
        p.1 ∉ relevant := by
    intro entries
    induction entries with
    | nil => intro st h; exact h
    | cons a t ih =>
        intro st h
        refine ih _ ?_
        show ∀ p ∈ (if a.2.truthy then stepCode hasCrit relevant st a.1 a.2 else st).bonus,
          p.1 ∉ relevant
        split
        · exact stepCode_bonusKeys hasCrit relevant st a.1 a.2 h
        · exact h
  rw [stepAnti]
  cases hleg : anti.legacy with
  | none =>
      simp only
      exact hfold1 _ _ h
  | some lg =>
      simp only
      exact hfold2 _ _ (hfold2 _ _ (hfold1 _ _ h))

/-- With no pathogen criteria selected, `stepAnti` leaves the bonus map
unchanged. -/
theorem stepAnti_bonus_of_not_hasCrit (relevant : List String) (st : CovState) (anti : ApiAb) :
    (stepAnti false relevant st anti).bonus = st.bonus := by
  have hfold1 : ∀ (codes : List String) (st : CovState),
      (codes.foldl (fun s code => stepCode false relevant s code (JVal.str "v")) st).bonus
        = st.bonus := by
    intro codes
    induction codes with
    | nil => intro st; rfl
    | cons a t ih =>
        intro st
        rw [List.foldl_cons, ih, stepCode_bonus_of_not_hasCrit]
  have hfold2 : ∀ (entries : List (String × JVal)) (st : CovState),
      (entries.foldl
          (fun s q => if q.2.truthy then stepCode false relevant s q.1 q.2 else s) st).bonus
        = st.bonus := by
    intro entries
    induction entries with
    | nil => intro st; rfl
    | cons a t ih =>
        intro st
        rw [List.foldl_cons, ih]
        split
        · rw [stepCode_bonus_of_not_hasCrit]
        · rfl
  rw [stepAnti]
  cases hleg : anti.legacy with
  | none =>
      simp only
      exact hfold1 _ _
  | some lg =>
      simp only
      rw [hfold2, hfold2, hfold1]

/-- The covered/uncovered output loop is a filter-based partition of the
relevant keys. -/
theorem coverLoop_char (cm : List (String × (Bool × JVal))) :
    ∀ (keys : List String) (acc1 : List CoveredEntry) (acc2 : List String),
      keys.foldl
        (fun (acc : List CoveredEntry × List String) k =>
          if isCov cm k then
            (acc.1 ++ [{ key := k, level := lvlOf cm k, bonus := false }], acc.2)
          else (acc.1, acc.2 ++ [k]))
        (acc1, acc2)
      = (acc1 ++ (keys.filter (fun k => isCov cm k)).map
            (fun k => { key := k, level := lvlOf cm k, bonus := false }),
         acc2 ++ keys.filter (fun k => !isCov cm k)) := by
  intro keys
  induction keys with
  | nil => intro acc1 acc2; simp
  | cons a t ih =>
      intro acc1 acc2
      simp only [List.foldl_cons, List.filter_cons]
      cases hcov : isCov cm a <;>
        simp [hcov, ih, List.append_assoc]

/-- Counting a key across a filter-based partition recovers its count. -/
theorem count_filter_not_split (l : List String) (p q : String → Bool)
    (hq : ∀ a, q a = !p a) (k : String) :
    (l.filter p).count k + (l.filter q).count k = l.count k := by
  induction l with
  | nil => rfl
  | cons a t ih =>
      rw [List.filter_cons, List.filter_cons, hq a]
      cases hp : p a <;>
        simp [List.count_cons, ih] <;>
        split <;>
        omega

/-- Unfolding `computeCoverage` to its filter-based characterization. -/
theorem computeCoverage_eq (sel : List ApiAb) (crit : List String) :
    computeCoverage sel crit
      = (((relevantPathogens crit).filter (fun k => isCov (covStateOf sel crit).covMap k)).map
            (fun k => { key := k, level := lvlOf (covStateOf sel crit).covMap k, bonus := false })
          ++ (covStateOf sel crit).bonus.map
            (fun p => { key := p.1, level := p.2.2, bonus := true }),
         (relevantPathogens crit).filter (fun k => !isCov (covStateOf sel crit).covMap k)) := by
  simp only [computeCoverage, covStateOf]
  rw [coverLoop_char]
  simp

/-- The bonus keys accumulated by `computeCoverage` all lie outside the
relevant pathogen set. -/
theorem covStateOf_bonusKeys (sel : List ApiAb) (crit : List String) :
    ∀ p ∈ (covStateOf sel crit).bonus, p.1 ∉ relevantPathogens crit := by
  rw [covStateOf]
  have hgen : ∀ (l : List ApiAb) (st : CovState),
      (∀ p ∈ st.bonus, p.1 ∉ relevantPathogens crit) →
      ∀ p ∈ (l.foldl (stepAnti (crit.length > 0) (relevantPathogens crit)) st).bonus,
        p.1 ∉ relevantPathogens crit := by
    intro l
    induction l with
    | nil => intro st h; exact h
    | cons a t ih =>
        intro st h
        exact ih _ (stepAnti_bonusKeys _ _ _ _ h)
  apply hgen
  intro p hp
  exact absurd hp (List.not_mem_nil p)

/-- With no criteria selected, `computeCoverage` accumulates no bonus
coverage at all. -/
theorem covStateOf_bonus_nil (sel : List ApiAb) :
    (covStateOf sel []).bonus = [] := by
  rw [covStateOf]
  have hgen : ∀ (l : List ApiAb) (st : CovState),
      (l.foldl (stepAnti (([] : List String).length > 0) (relevantPathogens [])) st).bonus
        = st.bonus := by
    intro l
    induction l with
    | nil => intro st; rfl
    | cons a t ih =>
        intro st
        rw [List.foldl_cons, ih]
        exact stepAnti_bonus_of_not_hasCrit _ _ _
  exact hgen sel _

/-- The covered component of `computeCoverage`. -/
theorem computeCoverage_fst_eq (sel : List ApiAb) (crit : List String) :
    (computeCoverage sel crit).1
      = ((relevantPathogens crit).filter (fun k => isCov (covStateOf sel crit).covMap k)).map
          (fun k => { key := k, level := lvlOf (covStateOf sel crit).covMap k, bonus := false })
        ++ (covStateOf sel crit).bonus.map
          (fun p => { key := p.1, level := p.2.2, bonus := true }) := by
  rw [computeCoverage_eq]

/-- The uncovered component of `computeCoverage`. -/
theorem computeCoverage_snd_eq (sel : List ApiAb) (crit : List String) :
    (computeCoverage sel crit).2
      = (relevantPathogens crit).filter (fun k => !isCov (covStateOf sel crit).covMap k) := by
  rw [computeCoverage_eq]

/-- C4: the coverage accounting partitions the relevant pathogen set
exhaustively and disjointly — every relevant code appears in exactly one
of covered/uncovered — while bonus entries are never drawn from the
relevant set and only exist when pathogen criteria were selected. -/
theorem computeCoverage_partition (sel : List ApiAb) (crit : List String) :
    (∀ k ∈ relevantPathogens crit,
        (computeCoverage sel crit).1.countP (fun e => e.key == k)
          + (computeCoverage sel crit).2.count k = 1) ∧
    (∀ e ∈ (computeCoverage sel crit).1, e.bonus = true → e.key ∉ relevantPathogens crit) ∧
    (crit = [] → ∀ e ∈ (computeCoverage sel crit).1, e.bonus = false) := by
  rw [computeCoverage_fst_eq, computeCoverage_snd_eq]
  refine ⟨?_, ?_, ?_⟩
  · intro k hk
    rw [List.countP_append]
    have hA : (((relevantPathogens crit).filter
          (fun k => isCov (covStateOf sel crit).covMap k)).map
          (fun k => ({ key := k, level := lvlOf (covStateOf sel crit).covMap k, bonus := false } : CoveredEntry))).countP (fun e => e.key == k)
        = ((relevantPathogens crit).filter
            (fun k => isCov (covStateOf sel crit).covMap k)).count k := by
      rw [List.countP_map]
      rfl
    have hB : ((covStateOf sel crit).bonus.map
          (fun p => ({ key := p.1, level := p.2.2, bonus := true } : CoveredEntry))).countP
          (fun e => e.key == k) = 0 := by
      rw [List.countP_map]
      apply List.countP_eq_zero.mpr
      intro p hp
      intro hbeq
      have hbeq' : (p.1 == k) = true := hbeq
      exact covStateOf_bonusKeys sel crit p hp (by rw [eq_of_beq hbeq']; exact hk)
    rw [hA, hB, Nat.add_zero]
    have hsplit := count_filter_not_split (relevantPathogens crit)
      (fun k => isCov (covStateOf sel crit).covMap k)
      (fun k => !isCov (covStateOf sel crit).covMap k) (fun a => rfl) k
    have hone : (relevantPathogens crit).count k = 1 :=
      List.count_eq_one_of_mem (relevantPathogens_nodup crit) hk
    omega
  · intro e he hbonus
    rcases List.mem_append.mp he with h1 | h2
    · rcases List.mem_map.mp h1 with ⟨k', hk', he'⟩
      rw [← he'] at hbonus
      exact Bool.noConfusion hbonus
    · rcases List.mem_map.mp h2 with ⟨p, hp, he'⟩
      rw [← he']
      exact covStateOf_bonusKeys sel crit p hp
  · intro hcrit e he
    subst hcrit
    rw [covStateOf_bonus_nil] at he
    simp only [List.map_nil, List.append_nil] at he
    rcases List.mem_map.mp he with ⟨k', hk', he'⟩
    rw [← he']

/-- C4 witness: drug X covers MRSA, drug Y covers ESBL; with relevant
pathogens {MRSA, ESBL, VRE}, the code MRSA lands in exactly one output
bucket, and with empty criteria no entry is marked bonus. -/
theorem computeCoverage_partition_witness :
    (computeCoverage [transformLegacy 0 drugX, transformLegacy 1 drugY]
        ["MRSA", "ESBL", "VRE"]).1.countP (fun e => e.key == "MRSA")
      + (computeCoverage [transformLegacy 0 drugX, transformLegacy 1 drugY]
        ["MRSA", "ESBL", "VRE"]).2.count "MRSA" = 1 ∧
    (∀ e ∈ (computeCoverage [transformLegacy 0 drugX] []).1, e.bonus = false) :=
  ⟨(computeCoverage_partition [transformLegacy 0 drugX, transformLegacy 1 drugY]
      ["MRSA", "ESBL", "VRE"]).1 "MRSA" (by decide),
   (computeCoverage_partition [transformLegacy 0 drugX] []).2.2 rfl⟩

end AntiCalc
